import Mathlib

/-!
Verification of the amortization core of `loan_cul.py`: the payment
calculator `calculate_monthly_payment` and the schedule simulator
`calculate_amortization_schedule`.

Numbers are modelled as exact rationals (`ℚ`); the Python functions'
arithmetic is translated term by term.  A Python `ZeroDivisionError` is
modelled by returning `none`, so `calculate_monthly_payment` produces an
`Option (ℚ × ℚ)` (monthly payment, bonus payment).  The simulation loop of
`calculate_amortization_schedule` is embedded as explicit state passing:
`SimState` carries the two running balances (`monthly_remaining`,
`bonus_remaining`), `sim_step` is one iteration of the `for month in
range(1, num_payments + 1)` loop, `stateAfter` is the state after `k`
iterations and `sim_schedule` the list of emitted records.
-/

namespace LoanCul

/-- One row of the schedule, mirroring the dict appended per month:
`回数` (periodIndex), `返済額` (totalPayment), `月々返済`
(monthlyPortionPayment), `賞与返済` (bonusPortionPayment), `元金`
(principalPortion), `利息` (interestPortion), `残高` (endingBalance). -/
structure PeriodRecord where
  periodIndex : ℕ
  totalPayment : ℚ
  monthlyPortionPayment : ℚ
  bonusPortionPayment : ℚ
  principalPortion : ℚ
  interestPortion : ℚ
  endingBalance : ℚ
  deriving DecidableEq, Repr

/-- The two running balances carried through the simulation loop. -/
structure SimState where
  monthly_remaining : ℚ
  bonus_remaining : ℚ
  deriving DecidableEq, Repr

/-- Embedding of `calculate_monthly_payment(principal, annual_rate, years,
bonus_principal, bonus_frequency)`.  Returns `none` exactly where Python
would raise `ZeroDivisionError` (a zero divisor); otherwise
`some (monthly_payment, bonus_payment)`. -/
def calculate_monthly_payment (principal annual_rate : ℚ) (years : ℕ)
    (bonus_principal : ℚ) (bonus_frequency : ℕ) : Option (ℚ × ℚ) :=
  let monthly_rate : ℚ := annual_rate / 100 / 12
  let num_payments : ℕ := years * 12
  let monthly_principal : ℚ := principal - bonus_principal
  if monthly_rate = 0 then
    if (num_payments : ℚ) = 0 then none
    else if 0 < bonus_principal ∧ ((years : ℚ) * (bonus_frequency : ℚ)) = 0 then none
    else
      some (monthly_principal / (num_payments : ℚ),
        if 0 < bonus_principal then
          bonus_principal / ((years : ℚ) * (bonus_frequency : ℚ))
        else 0)
  else
    if (1 + monthly_rate) ^ num_payments - 1 = 0 then none
    else
      let monthly_payment :=
        monthly_principal * (monthly_rate * (1 + monthly_rate) ^ num_payments) /
          ((1 + monthly_rate) ^ num_payments - 1)
      if 0 < bonus_principal then
        if (1 + monthly_rate * (bonus_frequency : ℚ)) ^ years - 1 = 0 then none
        else
          some (monthly_payment,
            bonus_principal *
                (monthly_rate * (bonus_frequency : ℚ) *
                  (1 + monthly_rate * (bonus_frequency : ℚ)) ^ years) /
              ((1 + monthly_rate * (bonus_frequency : ℚ)) ^ years - 1))
      else
        some (monthly_payment, 0)

/-- The `bonus_months` list: `[6, 12]` for frequency 2, `[12]` for
frequency 1, empty otherwise. -/
def bonus_months (bonus_frequency : ℕ) : List ℕ :=
  if bonus_frequency = 2 then [6, 12]
  else if bonus_frequency = 1 then [12]
  else []

/-- One iteration of the simulation loop for `month`, producing the emitted
record and the updated state.  `is_bonus_month = (month % 12) in
bonus_months`; the bonus quantities are `0` unless the month is a bonus
month and `bonus_remaining > 0`. -/
def sim_step (monthly_rate monthly_payment bonus_payment : ℚ)
    (bonus_frequency : ℕ) (month : ℕ) (s : SimState) : PeriodRecord × SimState :=
  let is_bonus_month := (month % 12) ∈ bonus_months bonus_frequency
  let monthly_interest := s.monthly_remaining * monthly_rate
  let monthly_principal_payment := monthly_payment - monthly_interest
  let bonus_interest :=
    if is_bonus_month ∧ 0 < s.bonus_remaining then s.bonus_remaining * monthly_rate else 0
  let bonus_principal_payment :=
    if is_bonus_month ∧ 0 < s.bonus_remaining then
      min (bonus_payment - s.bonus_remaining * monthly_rate) s.bonus_remaining
    else 0
  let bonus_payment_this_month := bonus_interest + bonus_principal_payment
  let monthly_remaining' := s.monthly_remaining - monthly_principal_payment
  let bonus_remaining' := s.bonus_remaining - bonus_principal_payment
  (⟨month,
    monthly_payment + bonus_payment_this_month,
    monthly_payment,
    bonus_payment_this_month,
    monthly_principal_payment + bonus_principal_payment,
    monthly_interest + bonus_interest,
    max 0 (monthly_remaining' + bonus_remaining')⟩,
   ⟨monthly_remaining', bonus_remaining'⟩)

/-- The loop state after `k` iterations (months `1 .. k` processed). -/
def stateAfter (monthly_rate monthly_payment bonus_payment : ℚ)
    (bonus_frequency : ℕ) (init : SimState) : ℕ → SimState
  | 0 => init
  | k + 1 =>
    (sim_step monthly_rate monthly_payment bonus_payment bonus_frequency (k + 1)
      (stateAfter monthly_rate monthly_payment bonus_payment bonus_frequency init k)).2

/-- The record emitted for month `k + 1` (0-based position `k`). -/
def recordAt (monthly_rate monthly_payment bonus_payment : ℚ)
    (bonus_frequency : ℕ) (init : SimState) (k : ℕ) : PeriodRecord :=
  (sim_step monthly_rate monthly_payment bonus_payment bonus_frequency (k + 1)
    (stateAfter monthly_rate monthly_payment bonus_payment bonus_frequency init k)).1

/-- The full list of records emitted by the loop over `n` months. -/
def sim_schedule (monthly_rate monthly_payment bonus_payment : ℚ)
    (bonus_frequency : ℕ) (init : SimState) (n : ℕ) : List PeriodRecord :=
  (List.range n).map (recordAt monthly_rate monthly_payment bonus_payment bonus_frequency init)

/-- Embedding of `calculate_amortization_schedule`: computes the payment
plan, then runs the simulation for `years * 12` months starting from
balances `(principal - bonus_principal, bonus_principal)`.  `none` when the
payment computation raises. -/
def calculate_amortization_schedule (principal annual_rate : ℚ) (years : ℕ)
    (bonus_principal : ℚ) (bonus_frequency : ℕ) : Option (List PeriodRecord) :=
  (calculate_monthly_payment principal annual_rate years bonus_principal bonus_frequency).map
    (fun plan =>
      sim_schedule (annual_rate / 100 / 12) plan.1 plan.2 bonus_frequency
        ⟨principal - bonus_principal, bonus_principal⟩ (years * 12))

/-- The schedule as a plain list (empty in the error case); convenient for
stating the per-record properties. -/
def scheduleOf (principal annual_rate : ℚ) (years : ℕ)
    (bonus_principal : ℚ) (bonus_frequency : ℕ) : List PeriodRecord :=
  (calculate_amortization_schedule principal annual_rate years bonus_principal
    bonus_frequency).getD []

/-- The bonus-eligibility test of step `k + 1` together with the positivity
test on the bonus balance, exactly as the loop's `if` evaluates it. -/
def bonusActive (monthly_rate monthly_payment bonus_payment : ℚ)
    (bonus_frequency : ℕ) (init : SimState) (k : ℕ) : Prop :=
  (k + 1) % 12 ∈ bonus_months bonus_frequency ∧
    0 < (stateAfter monthly_rate monthly_payment bonus_payment bonus_frequency
      init k).bonus_remaining

instance (r mp bp : ℚ) (bf : ℕ) (init : SimState) (k : ℕ) :
    Decidable (bonusActive r mp bp bf init k) := by
  unfold bonusActive
  infer_instance

/-- The spec's validity domain for `LoanTerms`: positive principal,
non-negative rate, positive integral term, `0 ≤ bonusPrincipal ≤ principal`
and bonus frequency in `{1, 2}`. -/
abbrev ValidTerms (principal annual_rate : ℚ) (years : ℕ)
    (bonus_principal : ℚ) (bonus_frequency : ℕ) : Prop :=
  0 < principal ∧ 0 ≤ annual_rate ∧ 1 ≤ years ∧ 0 ≤ bonus_principal ∧
    bonus_principal ≤ principal ∧ (bonus_frequency = 1 ∨ bonus_frequency = 2)

/-! ### Payment-plan lemmas -/

/-- With a zero annual rate the computation takes the zero-interest branch:
straight division of each sub-principal by its number of occurrences. -/
theorem plan_zero_rate (p B : ℚ) (y f : ℕ) (hy : 1 ≤ y) (hf : 1 ≤ f) :
    calculate_monthly_payment p 0 y B f =
      some ((p - B) / ((y : ℚ) * 12),
        if 0 < B then B / ((y : ℚ) * (f : ℚ)) else 0) := by
  have hy' : (0 : ℚ) < (y : ℚ) := by exact_mod_cast hy
  have hf' : (0 : ℚ) < (f : ℚ) := by exact_mod_cast hf
  have hyf : ((y : ℚ) * (f : ℚ)) ≠ 0 := by positivity
  have hn : ((y * 12 : ℕ) : ℚ) ≠ 0 := by positivity
  simp only [calculate_monthly_payment]
  norm_num [hyf, hn]
  intro h
  omega

example : calculate_monthly_payment 1200 0 1 600 2 = some (50, 300) := by
  rw [plan_zero_rate 1200 600 1 2 (by norm_num) (by norm_num)]
  norm_num

/-- For a positive per-period rate `x` and at least one period, the annuity
denominator `(1 + x) ^ m - 1` is positive. -/
theorem annuity_denom_pos (x : ℚ) (m : ℕ) (hx : 0 < x) (hm : m ≠ 0) :
    0 < (1 + x) ^ m - 1 := by
  have h1 : (1 : ℚ) < 1 + x := by linarith
  have := one_lt_pow₀ h1 hm
  linarith

/-- The level annuity payment on a non-negative principal `P` is at least the
per-period interest `P * x` on the full principal. -/
theorem annuity_payment_ge (P x : ℚ) (m : ℕ) (hP : 0 ≤ P) (hx : 0 < x)
    (hm : m ≠ 0) : P * x ≤ P * (x * (1 + x) ^ m) / ((1 + x) ^ m - 1) := by
  have hD : 0 < (1 + x) ^ m - 1 := annuity_denom_pos x m hx hm
  rw [le_div_iff₀ hD]
  have h : P * x * ((1 + x) ^ m - 1) = P * (x * (1 + x) ^ m) - P * x := by ring
  rw [h]
  have := mul_nonneg hP hx.le
  linarith

/-- With a positive annual rate, `calculate_monthly_payment` returns the two
annuity formulas from the source (the bonus one only when
`bonus_principal > 0`, else `0`). -/
theorem plan_pos_rate (p rate B : ℚ) (y f : ℕ) (hrate : 0 < rate)
    (hy : 1 ≤ y) (hf : 1 ≤ f) :
    calculate_monthly_payment p rate y B f =
      some ((p - B) * (rate / 100 / 12 * (1 + rate / 100 / 12) ^ (y * 12)) /
          ((1 + rate / 100 / 12) ^ (y * 12) - 1),
        if 0 < B then
          B * (rate / 100 / 12 * (f : ℚ) *
              (1 + rate / 100 / 12 * (f : ℚ)) ^ y) /
            ((1 + rate / 100 / 12 * (f : ℚ)) ^ y - 1)
        else 0) := by
  have hr : 0 < rate / 100 / 12 := by positivity
  have hf' : (0 : ℚ) < (f : ℚ) := by exact_mod_cast hf
  have hrf : 0 < rate / 100 / 12 * (f : ℚ) := by positivity
  have hD : (1 + rate / 100 / 12) ^ (y * 12) - 1 ≠ 0 :=
    (annuity_denom_pos _ _ hr (by omega)).ne'
  have hD2 : (1 + rate / 100 / 12 * (f : ℚ)) ^ y - 1 ≠ 0 :=
    (annuity_denom_pos _ _ hrf (by omega)).ne'
  simp only [calculate_monthly_payment]
  rw [if_neg hr.ne', if_neg hD]
  by_cases hB : 0 < B
  · rw [if_pos hB, if_neg hD2, if_pos hB]
  · rw [if_neg hB, if_neg hB]

/-- `calculate_monthly_payment` never fails when the term is at least one
year, the rate is non-negative and the bonus frequency is at least one —
no other validation of the inputs takes place. -/
theorem plan_isSome (p rate B : ℚ) (y f : ℕ) (hrate : 0 ≤ rate)
    (hy : 1 ≤ y) (hf : 1 ≤ f) :
    (calculate_monthly_payment p rate y B f).isSome = true := by
  rcases eq_or_lt_of_le hrate with h0 | hpos
  · rw [← h0, plan_zero_rate p B y f hy hf]
    rfl
  · rw [plan_pos_rate p rate B y f hpos hy hf]
    rfl

/-! ### Simulation structure lemmas -/

section Sim

variable (r mp bp : ℚ) (bf : ℕ) (init : SimState)

theorem mr_step (k : ℕ) :
    (stateAfter r mp bp bf init (k + 1)).monthly_remaining =
      (stateAfter r mp bp bf init k).monthly_remaining * (1 + r) - mp := by
  simp only [stateAfter, sim_step]
  ring

theorem br_step (k : ℕ) :
    (stateAfter r mp bp bf init (k + 1)).bonus_remaining =
      (stateAfter r mp bp bf init k).bonus_remaining -
        (if bonusActive r mp bp bf init k then
          min (bp - (stateAfter r mp bp bf init k).bonus_remaining * r)
            ((stateAfter r mp bp bf init k).bonus_remaining)
        else 0) := rfl

theorem record_periodIndex (k : ℕ) :
    (recordAt r mp bp bf init k).periodIndex = k + 1 := rfl

theorem record_monthlyPortion (k : ℕ) :
    (recordAt r mp bp bf init k).monthlyPortionPayment = mp := rfl

theorem record_endingBalance (k : ℕ) :
    (recordAt r mp bp bf init k).endingBalance =
      max 0 ((stateAfter r mp bp bf init (k + 1)).monthly_remaining +
        (stateAfter r mp bp bf init (k + 1)).bonus_remaining) := rfl

theorem record_interest (k : ℕ) :
    (recordAt r mp bp bf init k).interestPortion =
      (stateAfter r mp bp bf init k).monthly_remaining * r +
        (if bonusActive r mp bp bf init k then
          (stateAfter r mp bp bf init k).bonus_remaining * r
        else 0) := rfl

theorem record_principal (k : ℕ) :
    (recordAt r mp bp bf init k).principalPortion =
      (mp - (stateAfter r mp bp bf init k).monthly_remaining * r) +
        (if bonusActive r mp bp bf init k then
          min (bp - (stateAfter r mp bp bf init k).bonus_remaining * r)
            ((stateAfter r mp bp bf init k).bonus_remaining)
        else 0) := rfl

theorem record_bonusPortion (k : ℕ) :
    (recordAt r mp bp bf init k).bonusPortionPayment =
      (if bonusActive r mp bp bf init k then
        (stateAfter r mp bp bf init k).bonus_remaining * r +
          min (bp - (stateAfter r mp bp bf init k).bonus_remaining * r)
            ((stateAfter r mp bp bf init k).bonus_remaining)
      else 0) := by
  by_cases h : bonusActive r mp bp bf init k
  · have hc : (k + 1) % 12 ∈ bonus_months bf ∧
        0 < (stateAfter r mp bp bf init k).bonus_remaining := h
    rw [if_pos h]
    show (if _ ∧ _ then _ else 0) + (if _ ∧ _ then _ else 0) = _
    rw [if_pos hc, if_pos hc]
  · have hc : ¬((k + 1) % 12 ∈ bonus_months bf ∧
        0 < (stateAfter r mp bp bf init k).bonus_remaining) := h
    rw [if_neg h]
    show (if _ ∧ _ then _ else 0) + (if _ ∧ _ then _ else 0) = (0 : ℚ)
    rw [if_neg hc, if_neg hc, add_zero]

/-- Each record's principal portion is exactly the drop of the combined
remaining balance across that period. -/
theorem record_principal_telescope (k : ℕ) :
    (recordAt r mp bp bf init k).principalPortion =
      ((stateAfter r mp bp bf init k).monthly_remaining +
        (stateAfter r mp bp bf init k).bonus_remaining) -
      ((stateAfter r mp bp bf init (k + 1)).monthly_remaining +
        (stateAfter r mp bp bf init (k + 1)).bonus_remaining) := by
  rw [record_principal, mr_step, br_step]
  ring

theorem sim_schedule_length (n : ℕ) :
    (sim_schedule r mp bp bf init n).length = n := by
  simp [sim_schedule]

theorem sim_schedule_get (n i : ℕ) (h : i < (sim_schedule r mp bp bf init n).length) :
    (sim_schedule r mp bp bf init n).get ⟨i, h⟩ = recordAt r mp bp bf init i := by
  simp [sim_schedule]

theorem sim_schedule_mem {rec : PeriodRecord} (n : ℕ)
    (h : rec ∈ sim_schedule r mp bp bf init n) :
    ∃ k, k < n ∧ rec = recordAt r mp bp bf init k := by
  simp only [sim_schedule, List.mem_map, List.mem_range] at h
  obtain ⟨k, hk, hrec⟩ := h
  exact ⟨k, hk, hrec.symm⟩

/-- Telescoping: the principal portions over the first `n` periods sum to
the total drop of the combined balance. -/
theorem sum_principal (n : ℕ) :
    ((sim_schedule r mp bp bf init n).map (fun rec => rec.principalPortion)).sum =
      (init.monthly_remaining + init.bonus_remaining) -
      ((stateAfter r mp bp bf init n).monthly_remaining +
        (stateAfter r mp bp bf init n).bonus_remaining) := by
  induction n with
  | zero => simp [sim_schedule, stateAfter]
  | succ n ih =>
    rw [sim_schedule, List.range_succ, List.map_append, List.map_append,
      List.sum_append]
    rw [sim_schedule] at ih
    rw [ih]
    simp only [List.map_cons, List.map_nil, List.sum_cons, List.sum_nil]
    rw [record_principal_telescope]
    ring

theorem sim_schedule_getLast (n : ℕ) (hn : n ≠ 0) :
    (sim_schedule r mp bp bf init n).getLast? =
      some (recordAt r mp bp bf init (n - 1)) := by
  obtain ⟨m, rfl⟩ : ∃ m, n = m + 1 := ⟨n - 1, (Nat.succ_pred_eq_of_pos (Nat.pos_of_ne_zero hn)).symm⟩
  rw [sim_schedule, List.range_succ, List.map_append]
  simp

end Sim

theorem scheduleOf_eq {p rate B mp bp : ℚ} {y f : ℕ}
    (h : calculate_monthly_payment p rate y B f = some (mp, bp)) :
    scheduleOf p rate y B f =
      sim_schedule (rate / 100 / 12) mp bp f ⟨p - B, B⟩ (y * 12) := by
  simp [scheduleOf, calculate_amortization_schedule, h]

/-! ### Closed forms and invariants -/

section Invariants

variable (r mp bp : ℚ) (bf : ℕ) (init : SimState)

/-- A bonus track that starts empty stays empty. -/
theorem bonus_stays_zero (h0 : init.bonus_remaining = 0) (k : ℕ) :
    (stateAfter r mp bp bf init k).bonus_remaining = 0 := by
  induction k with
  | zero => exact h0
  | succ k ih =>
    rw [br_step]
    have : ¬ bonusActive r mp bp bf init k := by
      unfold bonusActive
      rw [ih]
      simp
    rw [if_neg this, ih, sub_zero]

/-- Monthly balance under a zero monthly rate: straight-line decrease. -/
theorem mr_zero_rate (k : ℕ) :
    (stateAfter 0 mp bp bf init k).monthly_remaining =
      init.monthly_remaining - (k : ℚ) * mp := by
  induction k with
  | zero => simp [stateAfter]
  | succ k ih =>
    rw [mr_step, ih]
    push_cast
    ring

/-- Monthly balance under a nonzero rate with the annuity payment: the usual
closed form `M * ((1+r)^n - (1+r)^k) / ((1+r)^n - 1)`. -/
theorem mr_closed (n : ℕ) (hD : (1 + r) ^ n - 1 ≠ 0)
    (hmp : mp = init.monthly_remaining * (r * (1 + r) ^ n) / ((1 + r) ^ n - 1))
    (k : ℕ) :
    (stateAfter r mp bp bf init k).monthly_remaining =
      init.monthly_remaining * ((1 + r) ^ n - (1 + r) ^ k) / ((1 + r) ^ n - 1) := by
  induction k with
  | zero =>
    rw [stateAfter, pow_zero]
    field_simp
  | succ k ih =>
    rw [mr_step, ih, hmp]
    field_simp
    ring

/-- The running balances stay within their initial bounds provided each
track's payment covers one period of interest on its full sub-principal. -/
theorem state_bounds (hr : 0 ≤ r)
    (hmp : init.monthly_remaining * r ≤ mp)
    (hbp : init.bonus_remaining * r ≤ bp)
    (hB0 : 0 ≤ init.bonus_remaining) (k : ℕ) :
    (stateAfter r mp bp bf init k).monthly_remaining ≤ init.monthly_remaining ∧
      0 ≤ (stateAfter r mp bp bf init k).bonus_remaining ∧
      (stateAfter r mp bp bf init k).bonus_remaining ≤ init.bonus_remaining := by
  induction k with
  | zero => exact ⟨le_refl _, hB0, le_refl _⟩
  | succ k ih =>
    obtain ⟨ihm, ihb0, ihb⟩ := ih
    refine ⟨?_, ?_, ?_⟩
    · rw [mr_step]
      have h1 : (stateAfter r mp bp bf init k).monthly_remaining * r ≤
          init.monthly_remaining * r := mul_le_mul_of_nonneg_right ihm hr
      nlinarith
    · rw [br_step]
      by_cases h : bonusActive r mp bp bf init k
      · rw [if_pos h]
        have h2 : min (bp - (stateAfter r mp bp bf init k).bonus_remaining * r)
            ((stateAfter r mp bp bf init k).bonus_remaining) ≤
            (stateAfter r mp bp bf init k).bonus_remaining := min_le_right _ _
        linarith
      · rw [if_neg h, sub_zero]
        exact ihb0
    · rw [br_step]
      by_cases h : bonusActive r mp bp bf init k
      · rw [if_pos h]
        have hbr : (stateAfter r mp bp bf init k).bonus_remaining * r ≤
            init.bonus_remaining * r := mul_le_mul_of_nonneg_right ihb hr
        have h1 : 0 ≤ bp - (stateAfter r mp bp bf init k).bonus_remaining * r := by
          linarith
        have h2 : 0 ≤ min (bp - (stateAfter r mp bp bf init k).bonus_remaining * r)
            ((stateAfter r mp bp bf init k).bonus_remaining) :=
          le_min h1 h.2.le
        linarith
      · rw [if_neg h, sub_zero]
        exact ihb

/-- Under the same payment bounds the combined remaining balance is
non-increasing from each period to the next. -/
theorem total_mono (hr : 0 ≤ r)
    (hmp : init.monthly_remaining * r ≤ mp)
    (hbp : init.bonus_remaining * r ≤ bp)
    (hB0 : 0 ≤ init.bonus_remaining) (k : ℕ) :
    (stateAfter r mp bp bf init (k + 1)).monthly_remaining +
        (stateAfter r mp bp bf init (k + 1)).bonus_remaining ≤
      (stateAfter r mp bp bf init k).monthly_remaining +
        (stateAfter r mp bp bf init k).bonus_remaining := by
  obtain ⟨ihm, ihb0, ihb⟩ := state_bounds r mp bp bf init hr hmp hbp hB0 k
  have hmono : (stateAfter r mp bp bf init (k + 1)).monthly_remaining ≤
      (stateAfter r mp bp bf init k).monthly_remaining := by
    rw [mr_step]
    have h1 : (stateAfter r mp bp bf init k).monthly_remaining * r ≤
        init.monthly_remaining * r := mul_le_mul_of_nonneg_right ihm hr
    nlinarith
  have hbmono : (stateAfter r mp bp bf init (k + 1)).bonus_remaining ≤
      (stateAfter r mp bp bf init k).bonus_remaining := by
    rw [br_step]
    by_cases h : bonusActive r mp bp bf init k
    · rw [if_pos h]
      have hbr : (stateAfter r mp bp bf init k).bonus_remaining * r ≤
          init.bonus_remaining * r := mul_le_mul_of_nonneg_right ihb hr
      have h1 : 0 ≤ bp - (stateAfter r mp bp bf init k).bonus_remaining * r := by
        linarith
      have h2 : 0 ≤ min (bp - (stateAfter r mp bp bf init k).bonus_remaining * r)
          ((stateAfter r mp bp bf init k).bonus_remaining) :=
        le_min h1 h.2.le
      linarith
    · rw [if_neg h, sub_zero]
  linarith

end Invariants

/-- Per-record accounting: the emitted fields satisfy
`principal + interest = total` and `total = monthly + bonus`. -/
theorem record_identity (r mp bp : ℚ) (bf : ℕ) (init : SimState) (k : ℕ) :
    (recordAt r mp bp bf init k).principalPortion +
        (recordAt r mp bp bf init k).interestPortion =
      (recordAt r mp bp bf init k).totalPayment ∧
    (recordAt r mp bp bf init k).totalPayment =
      (recordAt r mp bp bf init k).monthlyPortionPayment +
        (recordAt r mp bp bf init k).bonusPortionPayment := by
  have htot : (recordAt r mp bp bf init k).totalPayment =
      mp + (recordAt r mp bp bf init k).bonusPortionPayment := rfl
  refine ⟨?_, by rw [htot, record_monthlyPortion]⟩
  rw [record_principal, record_interest, htot, record_bonusPortion]
  by_cases h : bonusActive r mp bp bf init k
  · rw [if_pos h, if_pos h, if_pos h]
    ring
  · rw [if_neg h, if_neg h, if_neg h]
    ring

/-- Under the spec's validity constraints, each track's computed payment is
at least one period of interest on the corresponding full sub-principal. -/
theorem plan_bounds (p rate B : ℚ) (y f : ℕ) (hrate : 0 ≤ rate)
    (hy : 1 ≤ y) (hf : 1 ≤ f) (hB0 : 0 ≤ B) (hBp : B ≤ p) {mp bp : ℚ}
    (hplan : calculate_monthly_payment p rate y B f = some (mp, bp)) :
    (p - B) * (rate / 100 / 12) ≤ mp ∧ B * (rate / 100 / 12) ≤ bp := by
  have hy' : (0 : ℚ) < (y : ℚ) := by exact_mod_cast hy
  have hf' : (0 : ℚ) < (f : ℚ) := by exact_mod_cast hf
  have hpB : 0 ≤ p - B := by linarith
  rcases eq_or_lt_of_le hrate with h0 | hpos
  · rw [← h0] at hplan ⊢
    rw [plan_zero_rate p B y f hy hf] at hplan
    obtain ⟨hmp, hbp⟩ : (p - B) / ((y : ℚ) * 12) = mp ∧
        (if 0 < B then B / ((y : ℚ) * (f : ℚ)) else 0) = bp := by
      have := Option.some_injective _ hplan
      exact ⟨congrArg Prod.fst this, congrArg Prod.snd this⟩
    constructor
    · rw [← hmp]
      norm_num
      positivity
    · rw [← hbp]
      norm_num
      by_cases hB : 0 < B
      · rw [if_pos hB]
        positivity
      · rw [if_neg hB]
  · rw [plan_pos_rate p rate B y f hpos hy hf] at hplan
    obtain ⟨hmp, hbp⟩ : (p - B) * (rate / 100 / 12 * (1 + rate / 100 / 12) ^ (y * 12)) /
          ((1 + rate / 100 / 12) ^ (y * 12) - 1) = mp ∧
        (if 0 < B then
          B * (rate / 100 / 12 * (f : ℚ) *
              (1 + rate / 100 / 12 * (f : ℚ)) ^ y) /
            ((1 + rate / 100 / 12 * (f : ℚ)) ^ y - 1)
        else 0) = bp := by
      have := Option.some_injective _ hplan
      exact ⟨congrArg Prod.fst this, congrArg Prod.snd this⟩
    have hr : 0 < rate / 100 / 12 := by positivity
    constructor
    · rw [← hmp]
      exact annuity_payment_ge (p - B) (rate / 100 / 12) (y * 12) hpB hr (by omega)
    · rw [← hbp]
      by_cases hB : 0 < B
      · rw [if_pos hB]
        have h1 : B * (rate / 100 / 12 * (f : ℚ)) ≤
            B * (rate / 100 / 12 * (f : ℚ) *
                (1 + rate / 100 / 12 * (f : ℚ)) ^ y) /
              ((1 + rate / 100 / 12 * (f : ℚ)) ^ y - 1) :=
          annuity_payment_ge B (rate / 100 / 12 * (f : ℚ)) y hB.le
            (by positivity) (by omega)
        have h2 : B * (rate / 100 / 12) ≤ B * (rate / 100 / 12 * (f : ℚ)) := by
          have hge : (1 : ℚ) ≤ (f : ℚ) := by exact_mod_cast hf
          nlinarith [mul_nonneg (mul_nonneg hB.le hr.le) (sub_nonneg.mpr hge)]
        linarith
      · rw [if_neg hB]
        have hB' : B = 0 := le_antisymm (not_lt.mp hB) hB0
        rw [hB']
        norm_num

theorem scheduleOf_length {p rate B mp bp : ℚ} {y f : ℕ}
    (hplan : calculate_monthly_payment p rate y B f = some (mp, bp)) :
    (scheduleOf p rate y B f).length = y * 12 := by
  rw [scheduleOf_eq hplan, sim_schedule_length]

theorem scheduleOf_get {p rate B mp bp : ℚ} {y f : ℕ}
    (hplan : calculate_monthly_payment p rate y B f = some (mp, bp))
    (i : ℕ) (h : i < (scheduleOf p rate y B f).length) :
    (scheduleOf p rate y B f).get ⟨i, h⟩ =
      recordAt (rate / 100 / 12) mp bp f ⟨p - B, B⟩ i := by
  rw [List.get_of_eq (scheduleOf_eq hplan)]
  exact sim_schedule_get _ _ _ _ _ _ _ _

/-! ### Claim theorems -/

/-- Claim C7: for every valid `LoanTerms`, `calculate_amortization_schedule`
returns exactly `termYears * 12` records whose `periodIndex` values are the
contiguous integers `1, 2, ...` starting at 1. -/
theorem C7_schedule_length_and_contiguous_index (p rate B : ℚ) (y f : ℕ)
    (hv : ValidTerms p rate y B f) :
    (scheduleOf p rate y B f).length = y * 12 ∧
      ∀ i (h : i < (scheduleOf p rate y B f).length),
        ((scheduleOf p rate y B f).get ⟨i, h⟩).periodIndex = i + 1 := by
  obtain ⟨_, hrate, hy, _, _, hff⟩ := hv
  have hf : 1 ≤ f := by rcases hff with h | h <;> omega
  obtain ⟨⟨mp, bp⟩, hplan⟩ :=
    Option.isSome_iff_exists.mp (plan_isSome p rate B y f hrate hy hf)
  refine ⟨scheduleOf_length hplan, fun i h => ?_⟩
  rw [scheduleOf_get hplan]
  exact record_periodIndex _ _ _ _ _ _

/-- Claim C8: every emitted record reports
`endingBalance = max 0 (monthlyRemaining + bonusRemaining)`, hence never a
negative balance. -/
theorem C8_endingBalance_clamped (p rate B mp bp : ℚ) (y f : ℕ)
    (_hv : ValidTerms p rate y B f)
    (hplan : calculate_monthly_payment p rate y B f = some (mp, bp)) :
    ∀ i (h : i < (scheduleOf p rate y B f).length),
      ((scheduleOf p rate y B f).get ⟨i, h⟩).endingBalance =
        max 0 ((stateAfter (rate / 100 / 12) mp bp f ⟨p - B, B⟩
              (i + 1)).monthly_remaining +
          (stateAfter (rate / 100 / 12) mp bp f ⟨p - B, B⟩
              (i + 1)).bonus_remaining) ∧
      0 ≤ ((scheduleOf p rate y B f).get ⟨i, h⟩).endingBalance := by
  intro i h
  rw [scheduleOf_get hplan]
  exact ⟨record_endingBalance _ _ _ _ _ _, by
    rw [record_endingBalance]
    exact le_max_left _ _⟩

/-- Claim C9: with a non-negative rate and valid terms, the reported
`endingBalance` is non-increasing from each period to the next. -/
theorem C9_endingBalance_monotone (p rate B : ℚ) (y f : ℕ)
    (hv : ValidTerms p rate y B f) :
    ∀ i (h : i + 1 < (scheduleOf p rate y B f).length),
      ((scheduleOf p rate y B f).get ⟨i + 1, h⟩).endingBalance ≤
        ((scheduleOf p rate y B f).get ⟨i, Nat.lt_of_succ_lt h⟩).endingBalance := by
  obtain ⟨hp, hrate, hy, hB0, hBp, hff⟩ := hv
  have hf : 1 ≤ f := by rcases hff with h | h <;> omega
  obtain ⟨⟨mp, bp⟩, hplan⟩ :=
    Option.isSome_iff_exists.mp (plan_isSome p rate B y f hrate hy hf)
  obtain ⟨hmp, hbp⟩ := plan_bounds p rate B y f hrate hy hf hB0 hBp hplan
  have hr : 0 ≤ rate / 100 / 12 := by positivity
  intro i h
  rw [scheduleOf_get hplan, scheduleOf_get hplan, record_endingBalance,
    record_endingBalance]
  exact max_le_max (le_refl 0)
    (total_mono (rate / 100 / 12) mp bp f ⟨p - B, B⟩ hr hmp hbp hB0 (i + 1))

/-- Claim C10: in every emitted record, `principalPortion + interestPortion`
equals `totalPayment`, and `totalPayment` is the constant monthly payment
plus the period's `bonusPortionPayment`. -/
theorem C10_accounting_identity (p rate B mp bp : ℚ) (y f : ℕ)
    (hplan : calculate_monthly_payment p rate y B f = some (mp, bp)) :
    ∀ rec ∈ scheduleOf p rate y B f,
      rec.principalPortion + rec.interestPortion = rec.totalPayment ∧
      rec.totalPayment = rec.monthlyPortionPayment + rec.bonusPortionPayment ∧
      rec.monthlyPortionPayment = mp := by
  have hsch := scheduleOf_eq hplan
  simp only [hsch]
  intro rec hmem
  obtain ⟨k, _, rfl⟩ := sim_schedule_mem _ _ _ _ _ _ hmem
  obtain ⟨h1, h2⟩ := record_identity (rate / 100 / 12) mp bp f ⟨p - B, B⟩ k
  exact ⟨h1, h2, record_monthlyPortion _ _ _ _ _ _⟩

/-- Claim C3: with a zero annual rate, the monthly payment is
`(principal - bonusPrincipal) / (termYears * 12)`, the bonus payment is
`bonusPrincipal / (termYears * bonusFrequencyPerYear)` when
`bonusPrincipal > 0` (else 0), and every record's interest portion is 0. -/
theorem C3_zero_rate (p B : ℚ) (y f : ℕ) (hv : ValidTerms p 0 y B f) :
    calculate_monthly_payment p 0 y B f =
      some ((p - B) / ((y : ℚ) * 12),
        if 0 < B then B / ((y : ℚ) * (f : ℚ)) else 0) ∧
    ∀ rec ∈ scheduleOf p 0 y B f, rec.interestPortion = 0 := by
  obtain ⟨_, _, hy, _, _, hff⟩ := hv
  have hf : 1 ≤ f := by rcases hff with h | h <;> omega
  have hplan := plan_zero_rate p B y f hy hf
  refine ⟨hplan, ?_⟩
  rw [scheduleOf_eq hplan]
  have hr0 : (0 : ℚ) / 100 / 12 = 0 := by norm_num
  rw [hr0]
  intro rec hmem
  obtain ⟨k, _, rfl⟩ := sim_schedule_mem _ _ _ _ _ _ hmem
  rw [record_interest]
  simp

/-- Claim C4: with a positive annual rate, the monthly payment is the level
annuity `(p - B) * (r * (1+r)^n) / ((1+r)^n - 1)` with `r` the monthly rate
and `n = termYears * 12`, and the bonus payment (when `bonusPrincipal > 0`)
is the annuity on `B` over `termYears` periods at the nominal rate
`R = r * bonusFrequencyPerYear`; the bonus payment is 0 when
`bonusPrincipal = 0`. -/
theorem C4_positive_rate (p rate B : ℚ) (y f : ℕ)
    (hv : ValidTerms p rate y B f) (hpos : 0 < rate) :
    calculate_monthly_payment p rate y B f =
      some ((p - B) * (rate / 100 / 12 * (1 + rate / 100 / 12) ^ (y * 12)) /
          ((1 + rate / 100 / 12) ^ (y * 12) - 1),
        if 0 < B then
          B * (rate / 100 / 12 * (f : ℚ) *
              (1 + rate / 100 / 12 * (f : ℚ)) ^ y) /
            ((1 + rate / 100 / 12 * (f : ℚ)) ^ y - 1)
        else 0) := by
  obtain ⟨_, _, hy, _, _, hff⟩ := hv
  have hf : 1 ≤ f := by rcases hff with h | h <;> omega
  exact plan_pos_rate p rate B y f hpos hy hf

/-- Claim C5: with no bonus principal, the schedule fully amortizes the
loan: the principal portions sum exactly to `principal` and the final
record's ending balance is exactly 0 (exact rational arithmetic). -/
theorem C5_full_amortization_no_bonus (p rate : ℚ) (y f : ℕ)
    (hv : ValidTerms p rate y 0 f) :
    ((scheduleOf p rate y 0 f).map (fun rec => rec.principalPortion)).sum = p ∧
    ((scheduleOf p rate y 0 f).getLast?).map (fun rec => rec.endingBalance) =
      some 0 := by
  obtain ⟨hp, hrate, hy, _, _, hff⟩ := hv
  have hf : 1 ≤ f := by rcases hff with h | h <;> omega
  have hy' : (0 : ℚ) < (y : ℚ) := by exact_mod_cast hy
  have hn0 : y * 12 ≠ 0 := by omega
  obtain ⟨⟨mp, bp⟩, hplan⟩ :=
    Option.isSome_iff_exists.mp (plan_isSome p rate 0 y f hrate hy hf)
  -- the final combined balance is zero
  have hbr : ∀ k, (stateAfter (rate / 100 / 12) mp bp f ⟨p - 0, 0⟩ k).bonus_remaining
      = 0 := bonus_stays_zero (rate / 100 / 12) mp bp f ⟨p - 0, 0⟩ rfl
  have hmr : (stateAfter (rate / 100 / 12) mp bp f ⟨p - 0, 0⟩
      (y * 12)).monthly_remaining = 0 := by
    rcases eq_or_lt_of_le hrate with h0 | hposr
    · -- zero-rate branch: straight-line amortization
      rw [← h0] at hplan
      rw [plan_zero_rate p 0 y f hy hf] at hplan
      have hmp : mp = p / ((y : ℚ) * 12) := by
        have := Option.some_injective _ hplan
        have h1 := congrArg Prod.fst this
        simp at h1
        exact h1.symm
      have hr0 : (0 : ℚ) / 100 / 12 = 0 := by norm_num
      rw [← h0, hr0, mr_zero_rate, hmp]
      push_cast
      field_simp
    · -- positive-rate branch: annuity closed form
      rw [plan_pos_rate p rate 0 y f hposr hy hf] at hplan
      have hmp : mp = p * (rate / 100 / 12 * (1 + rate / 100 / 12) ^ (y * 12)) /
          ((1 + rate / 100 / 12) ^ (y * 12) - 1) := by
        have := Option.some_injective _ hplan
        have h1 := congrArg Prod.fst this
        simp at h1
        exact h1.symm
      have hr : 0 < rate / 100 / 12 := by positivity
      have hD : (1 + rate / 100 / 12) ^ (y * 12) - 1 ≠ 0 :=
        (annuity_denom_pos _ _ hr hn0).ne'
      rw [mr_closed (rate / 100 / 12) mp bp f ⟨p - 0, 0⟩ (y * 12) hD
        (by rw [hmp]; norm_num) (y * 12)]
      simp
  constructor
  · rw [scheduleOf_eq hplan, sum_principal, hbr, hmr]
    norm_num
  · rw [scheduleOf_eq hplan, sim_schedule_getLast _ _ _ _ _ _ hn0,
      Option.map_some', record_endingBalance,
      Nat.sub_add_cancel (by omega : 1 ≤ y * 12), hbr, hmr]
    simp

set_option maxHeartbeats 2000000 in
/-- Claim C1 (code defect): the loop tests `month % 12 ∈ [6, 12]`, but
`month % 12` is never 12, so December periods (periodIndex ≡ 0 mod 12) are
never bonus-eligible.  At principal 1200, rate 0, 1 year, bonus 600,
frequency 2: the plan is (50, 300); month 6 pays a 300 bonus; before month
12 the bonus balance is still 300 > 0, yet month 12 pays no bonus —
contradicting the claim that bonus activity occurs at every period with
periodIndex ≡ 0 mod 12 while bonusRemaining > 0. -/
theorem C1_december_never_bonus_eligible :
    ¬ (12 % 12 ∈ bonus_months 2) ∧
    calculate_monthly_payment 1200 0 1 600 2 = some (50, 300) ∧
    ((scheduleOf 1200 0 1 600 2).getD 5 ⟨0, 0, 0, 0, 0, 0, 0⟩).bonusPortionPayment
      = 300 ∧
    (stateAfter 0 50 300 2 ⟨600, 600⟩ 11).bonus_remaining = 300 ∧
    ((scheduleOf 1200 0 1 600 2).getD 11 ⟨0, 0, 0, 0, 0, 0, 0⟩).bonusPortionPayment
      = 0 ∧
    ((scheduleOf 1200 0 1 600 2).getD 11 ⟨0, 0, 0, 0, 0, 0, 0⟩).endingBalance
      = 300 := by
  refine ⟨by decide, ?_, ?_, ?_, ?_, ?_⟩ <;>
    norm_num [scheduleOf, calculate_amortization_schedule, calculate_monthly_payment,
      sim_schedule, recordAt, stateAfter, sim_step, bonus_months, min_def,
      List.range_succ]

set_option maxHeartbeats 2000000 in
/-- Claim C6 (code defect): with bonusFrequencyPerYear = 1 the loop tests
`month % 12 ∈ [12]`, which never holds, so no period is ever
bonus-eligible.  At principal 1200, rate 0, 1 year, bonus 600, frequency 1:
no bonus is ever paid, the principal portions sum to 600 instead of the
principal 1200, and bonusRemaining is still 600 after the last period —
contradicting the claim that the principal portions sum to `principal` and
that bonusRemaining reaches 0 by the last bonus-eligible period. -/
theorem C6_frequency_one_never_pays_bonus :
    bonus_months 1 = [12] ∧
    calculate_monthly_payment 1200 0 1 600 1 = some (50, 600) ∧
    ((scheduleOf 1200 0 1 600 1).map (fun rec => rec.bonusPortionPayment)).sum
      = 0 ∧
    ((scheduleOf 1200 0 1 600 1).map (fun rec => rec.principalPortion)).sum
      = 600 ∧
    (stateAfter 0 50 600 1 ⟨600, 600⟩ 12).bonus_remaining = 600 := by
  refine ⟨by decide, ?_, ?_, ?_, ?_⟩ <;>
    norm_num [scheduleOf, calculate_amortization_schedule, calculate_monthly_payment,
      sim_schedule, recordAt, stateAfter, sim_step, bonus_months, min_def,
      List.range_succ]

/-- Claim C2, counterexample: the source performs no input validation and
defines no `InvalidTermsError`; at the invalid input principal = -1 (≤ 0)
with otherwise valid parameters, `calculate_monthly_payment` succeeds and
produces output instead of failing. -/
theorem C2_counterexample_no_error_on_invalid :
    (-1 : ℚ) ≤ 0 ∧ (calculate_monthly_payment (-1) 0 1 0 2).isSome = true := by
  constructor
  · norm_num
  · norm_num [calculate_monthly_payment]

/-- Claim C2 (amended): `calculate_monthly_payment` raises no
`InvalidTermsError` — it validates nothing.  It produces output for every
input whose divisors are nonzero; in particular, for any principal and any
bonus principal whatsoever (including principal ≤ 0 and
bonusPrincipal > principal), whenever the term is at least one year, the
rate is non-negative and the bonus frequency is at least 1.  The only
failure mode is a `ZeroDivisionError` (e.g. termYears = 0). -/
theorem C2_no_validation_always_succeeds (p b rate : ℚ) (years bf : ℕ)
    (hrate : 0 ≤ rate) (hy : 1 ≤ years) (hf : 1 ≤ bf) :
    (calculate_monthly_payment p rate years b bf).isSome = true :=
  plan_isSome p rate b years bf hrate hy hf

theorem C2_no_validation_always_succeeds_witness :
    (0 : ℚ) ≤ 0 ∧ 1 ≤ 1 ∧ 1 ≤ 2 ∧
      (calculate_monthly_payment (-1) 0 1 2 2).isSome = true :=
  ⟨le_refl 0, le_refl 1, by norm_num,
    C2_no_validation_always_succeeds (-1) 2 0 1 2 (le_refl 0) (le_refl 1)
      (by norm_num)⟩

theorem C3_zero_rate_witness :
    ValidTerms 1200 0 1 600 2 ∧
      (calculate_monthly_payment 1200 0 1 600 2 =
        some (((1200 : ℚ) - 600) / (((1 : ℕ) : ℚ) * 12),
          if (0 : ℚ) < 600 then (600 : ℚ) / (((1 : ℕ) : ℚ) * ((2 : ℕ) : ℚ))
          else 0) ∧
      ∀ rec ∈ scheduleOf 1200 0 1 600 2, rec.interestPortion = 0) :=
  ⟨by decide, C3_zero_rate 1200 600 1 2 (by decide)⟩

theorem C4_positive_rate_witness :
    ValidTerms 1200 12 1 600 2 ∧ (0 : ℚ) < 12 ∧
      calculate_monthly_payment 1200 12 1 600 2 =
        some (((1200 : ℚ) - 600) *
            ((12 : ℚ) / 100 / 12 * (1 + (12 : ℚ) / 100 / 12) ^ (1 * 12)) /
            ((1 + (12 : ℚ) / 100 / 12) ^ (1 * 12) - 1),
          if (0 : ℚ) < 600 then
            (600 : ℚ) * ((12 : ℚ) / 100 / 12 * ((2 : ℕ) : ℚ) *
                (1 + (12 : ℚ) / 100 / 12 * ((2 : ℕ) : ℚ)) ^ 1) /
              ((1 + (12 : ℚ) / 100 / 12 * ((2 : ℕ) : ℚ)) ^ 1 - 1)
          else 0) :=
  ⟨by decide, by norm_num,
    C4_positive_rate 1200 12 600 1 2 (by decide) (by norm_num)⟩

theorem C5_full_amortization_no_bonus_witness :
    ValidTerms 1200 0 1 0 2 ∧
      (((scheduleOf 1200 0 1 0 2).map (fun rec => rec.principalPortion)).sum
          = 1200 ∧
        ((scheduleOf 1200 0 1 0 2).getLast?).map (fun rec => rec.endingBalance)
          = some 0) :=
  ⟨by decide, C5_full_amortization_no_bonus 1200 0 1 2 (by decide)⟩

theorem C7_schedule_length_and_contiguous_index_witness :
    ValidTerms 1200 0 1 600 2 ∧
      ((scheduleOf 1200 0 1 600 2).length = 1 * 12 ∧
        ∀ i (h : i < (scheduleOf 1200 0 1 600 2).length),
          ((scheduleOf 1200 0 1 600 2).get ⟨i, h⟩).periodIndex = i + 1) :=
  ⟨by decide, C7_schedule_length_and_contiguous_index 1200 0 600 1 2 (by decide)⟩

theorem C8_endingBalance_clamped_witness :
    ValidTerms 1200 0 1 600 2 ∧
      calculate_monthly_payment 1200 0 1 600 2 = some (50, 300) ∧
      ∀ i (h : i < (scheduleOf 1200 0 1 600 2).length),
        ((scheduleOf 1200 0 1 600 2).get ⟨i, h⟩).endingBalance =
          max 0 ((stateAfter ((0 : ℚ) / 100 / 12) 50 300 2 ⟨1200 - 600, 600⟩
                (i + 1)).monthly_remaining +
            (stateAfter ((0 : ℚ) / 100 / 12) 50 300 2 ⟨1200 - 600, 600⟩
                (i + 1)).bonus_remaining) ∧
        0 ≤ ((scheduleOf 1200 0 1 600 2).get ⟨i, h⟩).endingBalance :=
  ⟨by decide, by norm_num [calculate_monthly_payment],
    C8_endingBalance_clamped 1200 0 600 50 300 1 2 (by decide)
      (by norm_num [calculate_monthly_payment])⟩

theorem C9_endingBalance_monotone_witness :
    ValidTerms 1200 0 1 600 2 ∧
      ∀ i (h : i + 1 < (scheduleOf 1200 0 1 600 2).length),
        ((scheduleOf 1200 0 1 600 2).get ⟨i + 1, h⟩).endingBalance ≤
          ((scheduleOf 1200 0 1 600 2).get
            ⟨i, Nat.lt_of_succ_lt h⟩).endingBalance :=
  ⟨by decide, C9_endingBalance_monotone 1200 0 600 1 2 (by decide)⟩

theorem C10_accounting_identity_witness :
    calculate_monthly_payment 1200 0 1 600 2 = some (50, 300) ∧
      ∀ rec ∈ scheduleOf 1200 0 1 600 2,
        rec.principalPortion + rec.interestPortion = rec.totalPayment ∧
        rec.totalPayment = rec.monthlyPortionPayment + rec.bonusPortionPayment ∧
        rec.monthlyPortionPayment = 50 :=
  ⟨by norm_num [calculate_monthly_payment],
    C10_accounting_identity 1200 0 600 50 300 1 2
      (by norm_num [calculate_monthly_payment])⟩

end LoanCul
